import Mathlib

/-!
Verification of the browser-side search client (static/script.js and the
boot() variant in unnamed/part_000) against its specification.

The embedding models JavaScript values that flow through the client as an
inductive `Json` type, HTTP responses as a `Response` structure, and each
source function (`escapeHtml`, `fetchJson`, `renderTable`, `searchByMachine`,
`searchByLocation`, `downloadAllMatched`, `showHint`, `showError`,
`showLoading`) as a Lean function over those types.  DOM state touched by the
handlers is collected into a `UiState` record.
-/

/-- JavaScript values reaching the client from `JSON.parse` / `res.json()`.
`undefined` is represented at use sites by `Option Json` being `none`. -/
inductive Json where
  | null : Json
  | bool (b : Bool) : Json
  | num (n : Int) : Json
  | str (s : String) : Json
  | arr (elems : List Json) : Json
  | obj (fields : List (String × Json)) : Json

/-- Property access `j.key` / `j[key]`: defined for objects, `undefined`
(`none`) otherwise; access on `null` is handled by the callers that can
receive `null` (it throws in JS). -/
def getField (j : Json) (key : String) : Option Json :=
  match j with
  | Json.obj fields => (fields.find? (fun p => p.1 = key)).map (fun p => p.2)
  | _ => none

/-- JavaScript truthiness of a value. -/
def truthy (j : Json) : Bool :=
  match j with
  | Json.null => false
  | Json.bool b => b
  | Json.num n => n != 0
  | Json.str s => s != ""
  | Json.arr _ => true
  | Json.obj _ => true

/-- `x || d` on a possibly-undefined value, as used in `data.columns || []`. -/
def jsOr (o : Option Json) (d : Json) : Json :=
  match o with
  | some v => if truthy v then v else d
  | none => d

mutual
/-- JavaScript `String(v)` conversion. -/
def jsToString : Json → String
  | Json.null => "null"
  | Json.bool b => if b then "true" else "false"
  | Json.num n => toString n
  | Json.str s => s
  | Json.arr es => String.intercalate "," (jsArrParts es)
  | Json.obj _ => "[object Object]"

/-- Elements of `Array.prototype.toString`: `null` prints as empty. -/
def jsArrParts : List Json → List String
  | [] => []
  | Json.null :: rest => "" :: jsArrParts rest
  | e :: rest => jsToString e :: jsArrParts rest
end

/-- Append-map over characters, the semantics of a global single-character
regex replacement and of percent-encoding expansion. -/
def concatMapChars (f : Char → List Char) : List Char → List Char
  | [] => []
  | c :: l => f c ++ concatMapChars f l

/-- JSON string escaping used by `JSON.stringify` (quote, backslash and the
common control characters). -/
def jsonEscapeChar (c : Char) : List Char :=
  if c = '"' then ['\\', '"']
  else if c = '\\' then ['\\', '\\']
  else if c = '\n' then ['\\', 'n']
  else if c = '\r' then ['\\', 'r']
  else if c = '\t' then ['\\', 't']
  else [c]

mutual
/-- `JSON.stringify(v)` for the values in the model. -/
def stringify : Json → String
  | Json.null => "null"
  | Json.bool b => if b then "true" else "false"
  | Json.num n => toString n
  | Json.str s => "\"" ++ String.mk (concatMapChars jsonEscapeChar s.data) ++ "\""
  | Json.arr es => "[" ++ String.intercalate "," (stringifyParts es) ++ "]"
  | Json.obj fields => "\x7b" ++ String.intercalate "," (stringifyFields fields) ++ "\x7d"

def stringifyParts : List Json → List String
  | [] => []
  | e :: rest => stringify e :: stringifyParts rest

def stringifyFields : List (String × Json) → List String
  | [] => []
  | (k, v) :: rest =>
      ("\"" ++ String.mk (concatMapChars jsonEscapeChar k.data) ++ "\":" ++ stringify v)
        :: stringifyFields rest
end

/-- The JavaScript whitespace class used by `String.prototype.trim` (the
characters that occur in practice; exotic Unicode spaces are not modelled). -/
def jsWhitespace (c : Char) : Bool :=
  c = ' ' || c = '\t' || c = '\n' || c = '\r' ||
  c = Char.ofNat 11 || c = Char.ofNat 12 || c = Char.ofNat 160

/-- `s.trim()`. -/
def jsTrim (s : String) : String :=
  String.mk (((s.data.dropWhile jsWhitespace).reverse.dropWhile jsWhitespace).reverse)

/-- `hay.includes(needle)` on strings. -/
def strIncludes (hay needle : String) : Bool :=
  hay.data.tails.any (fun t => needle.data.isPrefixOf t)

/-- Value of a hexadecimal digit character. -/
def hexVal (c : Char) : Nat :=
  if c.isDigit then c.toNat - 48
  else if 'a' ≤ c ∧ c ≤ 'f' then c.toNat - 87
  else c.toNat - 55

def isHexDigit (c : Char) : Bool :=
  c.isDigit || ('a' ≤ c && c ≤ 'f') || ('A' ≤ c && c ≤ 'F')

/-- Digits-to-number accumulation at a given radix. -/
def digitsToNat (radix : Nat) (l : List Char) : Nat :=
  l.foldl (fun acc c => acc * radix + hexVal c) 0

/-- Maximal run of decimal digits; `none` when empty (parseInt yields NaN). -/
def parseDecRun (l : List Char) : Option Nat :=
  let ds := l.takeWhile Char.isDigit
  if ds = [] then none else some (digitsToNat 10 ds)

/-- Maximal run of hex digits; `none` when empty. -/
def parseHexRun (l : List Char) : Option Nat :=
  let ds := l.takeWhile isHexDigit
  if ds = [] then none else some (digitsToNat 16 ds)

/-- Unsigned part of `parseInt` with no explicit radix: a `0x`/`0X` head
switches to hexadecimal, otherwise decimal. -/
def parseIntUnsigned (l : List Char) : Option Nat :=
  match l with
  | '0' :: x :: rest =>
      if x = 'x' ∨ x = 'X' then parseHexRun rest else parseDecRun ('0' :: x :: rest)
  | _ => parseDecRun l

/-- JavaScript `parseInt(s)` (radix unspecified); `none` models `NaN`. -/
def parseIntJS (s : String) : Option Int :=
  match s.data.dropWhile jsWhitespace with
  | '-' :: rest => (parseIntUnsigned rest).map (fun n => -(n : Int))
  | '+' :: rest => (parseIntUnsigned rest).map (fun n => (n : Int))
  | rest => (parseIntUnsigned rest).map (fun n => (n : Int))

/-- `parseInt(limitSelect.value) || 50` from the two search handlers: the
`|| 50` replaces the falsy results NaN and 0. -/
def limitOf (s : String) : Int :=
  match parseIntJS s with
  | none => 50
  | some n => if n = 0 then 50 else n

/-- `v ?? ""` followed by `String(...)`: null and undefined become `""`. -/
def nullishToStr (v : Option Json) : String :=
  match v with
  | none => ""
  | some Json.null => ""
  | some j => jsToString j

/-- Single-character global replacement `s.replace(/pat/g, rep)`. -/
def replaceAllChar (pat : Char) (rep : String) (s : String) : String :=
  String.mk (concatMapChars (fun c => if c = pat then rep.data else [c]) s.data)

/-- `escapeHtml` from the source: `String(v ?? "")` then three sequential
global replacements for ampersand, less-than and greater-than. -/
def escapeHtml (v : Option Json) : String :=
  replaceAllChar '>' "&gt;" (replaceAllChar '<' "&lt;"
    (replaceAllChar '&' "&amp;" (nullishToStr v)))

/-- The character set `encodeURIComponent` leaves unencoded. -/
def isUnreservedURI (c : Char) : Bool :=
  c.isAlphanum || c = '-' || c = '_' || c = '.' || c = '!' ||
  c = '~' || c = '*' || c = Char.ofNat 39 || c = '(' || c = ')'

/-- Upper-case hexadecimal digit. -/
def hexDigitChar (n : Nat) : Char :=
  if n < 10 then Char.ofNat (48 + n) else Char.ofNat (55 + n)

/-- UTF-8 encoding of one code point. -/
def utf8BytesOf (c : Char) : List Nat :=
  let n := c.toNat
  if n < 128 then [n]
  else if n < 2048 then [192 + n / 64, 128 + n % 64]
  else if n < 65536 then [224 + n / 4096, 128 + (n / 64) % 64, 128 + n % 64]
  else [240 + n / 262144, 128 + (n / 4096) % 64, 128 + (n / 64) % 64, 128 + n % 64]

/-- `%XX` expansion of one byte. -/
def percentEncodeByte (b : Nat) : List Char :=
  ['%', hexDigitChar (b / 16), hexDigitChar (b % 16)]

def percentEncodeBytes : List Nat → List Char
  | [] => []
  | b :: rest => percentEncodeByte b ++ percentEncodeBytes rest

/-- JavaScript `encodeURIComponent`. -/
def encodeURIComponent (s : String) : String :=
  String.mk (concatMapChars
    (fun c => if isUnreservedURI c then [c] else percentEncodeBytes (utf8BytesOf c))
    s.data)

/-!
HTTP responses and the two fetchJson variants

`Response` carries the observable parts of a `fetch` response.  `textBody`
is the result of reading the body as text (`none`: the read fails);
`jsonBody` is the result of parsing that body as JSON, used by both
`res.json()` and `JSON.parse(text)` (`none`: the read or the parse fails).
-/

structure Response where
  status : Nat
  contentType : String
  textBody : Option String
  jsonBody : Option Json

/-- `res.ok`: status in the inclusive range 200..299. -/
def Response.ok (r : Response) : Bool :=
  decide (200 ≤ r.status) && decide (r.status ≤ 299)

/-- Outcome of one `fetch` call: a network-level rejection with an engine
message, or a response. -/
inductive FetchOutcome where
  | netErr (msg : String) : FetchOutcome
  | resp (r : Response) : FetchOutcome

/-- Message of the engine-generated exception when reading a body fails;
the exact browser text is opaque to the program, modelled as a constant. -/
def bodyReadFailMsg : String := "TypeError: failed to read response body"

/-- Message of the engine-generated SyntaxError when JSON parsing fails. -/
def jsonParseFailMsg : String := "SyntaxError: unexpected end of JSON input"

/-- Message of the TypeError thrown by `data.columns` when `data` is null. -/
def nullAccessMsg : String := "TypeError: cannot read properties of null"

/-- Error-message extraction for a non-ok response, shared verbatim by
script.js lines 77-89 and part_000 lines 305-319:
`msg = j.detail || JSON.stringify(j)` when the content type is JSON (with
`HTTP <status>` when reading or parsing fails, and also when the parsed
body is null, since `j.detail` then throws inside the same try block), the
text body otherwise, and
`new Error(msg)` with the fallback "Request failed" at the end.  The `||` tests act on the
JavaScript value before its conversion to the Error message string. -/
def errMsg (r : Response) : String :=
  let msgVal : Json :=
    if strIncludes r.contentType "application/json" then
      match r.jsonBody with
      | none => Json.str ("HTTP " ++ toString r.status)
      | some Json.null => Json.str ("HTTP " ++ toString r.status)
      | some j =>
        match getField j "detail" with
        | some d => if truthy d then d else Json.str (stringify j)
        | none => Json.str (stringify j)
    else
      match r.textBody with
      | none => Json.str ("HTTP " ++ toString r.status)
      | some t => Json.str t
  if truthy msgVal then jsToString msgVal else "Request failed"

namespace ScriptJs

/-- `fetchJson` of static/script.js (lines 68-98): no retry; non-ok statuses
raise `errMsg`; 204 returns `{}`; a non-JSON content type raises the text
body (or a fallback); otherwise the parsed JSON body is returned. -/
def fetchJson (o : FetchOutcome) : Except String Json :=
  match o with
  | FetchOutcome.netErr m => Except.error m
  | FetchOutcome.resp r =>
    if ¬ r.ok then Except.error (errMsg r)
    else if r.status = 204 then Except.ok (Json.obj [])
    else if ¬ strIncludes r.contentType "application/json" then
      match r.textBody with
      | none => Except.error bodyReadFailMsg
      | some t => Except.error (if t = "" then "Non-JSON response received" else t)
    else
      match r.jsonBody with
      | none => Except.error jsonParseFailMsg
      | some j => Except.ok j

end ScriptJs

namespace Boot

/-- The inner `attempt` of the hardened `fetchJson` (part_000 lines
305-331): non-ok raises `errMsg`; then the body is read as text, a
non-JSON content type raises the text (or a fallback when it is empty),
an empty or whitespace-only body raises "Empty response from server",
and otherwise `JSON.parse(text)` is returned. -/
def attempt (r : Response) : Except String Json :=
  if ¬ r.ok then Except.error (errMsg r)
  else
    match r.textBody with
    | none => Except.error bodyReadFailMsg
    | some text =>
      if ¬ strIncludes r.contentType "application/json" then
        Except.error (if text = "" then "Non-JSON response received" else text)
      else if text = "" ∨ jsTrim text = "" then
        Except.error "Empty response from server"
      else
        match r.jsonBody with
        | none => Except.error jsonParseFailMsg
        | some j => Except.ok j

/-- The hardened `fetchJson` (part_000 lines 293-341).  The arguments are
the outcomes of the at most two `doFetch()` calls; the returned number
counts the requests actually issued.  The initial `doFetch()` sits outside
the try block, so its network-level rejection propagates without retry;
a failure of `attempt` triggers the single delayed retry, whose own result
(or network failure) propagates unmodified. -/
def fetchJson (o1 o2 : FetchOutcome) : Except String Json × Nat :=
  match o1 with
  | FetchOutcome.netErr m => (Except.error m, 1)
  | FetchOutcome.resp r =>
    match attempt r with
    | Except.ok j => (Except.ok j, 1)
    | Except.error _ =>
      match o2 with
      | FetchOutcome.netErr m => (Except.error m, 2)
      | FetchOutcome.resp r2 => (attempt r2, 2)

end Boot

/-!
DOM state and the UI handlers (static/script.js)

`UiState` collects the mutable fields the handlers touch: the two
module-level variables, the disabled flags of the export and copy buttons,
the output area markup, the two counter pills and the status line.
-/

/-- The `lastSearch` record. -/
structure Search where
  type : String
  value : String

structure UiState where
  lastSearch : Option Search
  lastResult : Option Json
  downloadDisabled : Bool
  copyDisabled : Bool
  outputHtml : String
  matchedText : String
  returnedText : String
  statusText : String

/-- `showHint` (lines 39-52): clears both records, disables both buttons,
restores the placeholder and resets counters and status. -/
def showHintU : UiState :=
  UiState.mk none none true true
    "\n<div class=\"hint\">\n  Results will appear here.<br/>\n  This UI calls your backend and renders JSON.\n</div>"
    "Matched: 0" "Returned: 0" "Ready."

/-- `showError` (lines 54-58): replaces the output area and the status
line, leaving all other fields alone (the toast is transient). -/
def showErrorU (st : UiState) (message : String) : UiState :=
  UiState.mk st.lastSearch st.lastResult st.downloadDisabled st.copyDisabled
    ("<div class=\"error\">" ++ escapeHtml (some (Json.str message)) ++ "</div>")
    st.matchedText st.returnedText "Error!"

/-- `showLoading` (lines 60-65). -/
def showLoadingU (st : UiState) (msg : String) : UiState :=
  UiState.mk st.lastSearch st.lastResult st.downloadDisabled st.copyDisabled
    ("<div class=\"loading\">\n      <div class=\"spinner\"></div> "
      ++ escapeHtml (some (Json.str msg)) ++ "\n    </div>")
    st.matchedText st.returnedText msg

/-- `${x}` template interpolation: `undefined` prints as "undefined". -/
def tmplOpt (v : Option Json) : String :=
  match v with
  | none => "undefined"
  | some j => jsToString j

/-- The `.length` property of a JavaScript value (arrays and strings have
one; other values give `undefined`). -/
def lenProp (j : Json) : Option Json :=
  match j with
  | Json.arr es => some (Json.num es.length)
  | Json.str s => some (Json.num s.length)
  | _ => none

/-- One header cell of `renderTable`. -/
def thCell (c : Json) : String :=
  "<th>" ++ escapeHtml (some c) ++ "</th>"

/-- One body cell of `renderTable`: `escapeHtml(r[c])`. -/
def tdCell (r : Json) (c : Json) : String :=
  "<td>" ++ escapeHtml (getField r (jsToString c)) ++ "</td>"

/-- One body row; `r[c]` on a `null` row throws, so the row fails when
there is at least one column. -/
def rowHtml (cols : List Json) (r : Json) : Option String :=
  match r, cols with
  | Json.null, _ :: _ => none
  | _, _ => some ("<tr>" ++ String.join (cols.map (fun c => tdCell r c)) ++ "</tr>")

/-- The body loop of `renderTable`: rows are rendered in order and the
first throwing row aborts the whole build. -/
def mapRowsHtml (f : Json → Option String) : List Json → Option (List String)
  | [] => some []
  | r :: rest =>
    match f r, mapRowsHtml f rest with
    | some s, some l => some (s :: l)
    | _, _ => none

/-- What `for..of` iterates: arrays element-wise, strings as their
characters (one-character strings, counted in code points); other values
are not iterable and throw. -/
def jsIterate : Json → Option (List Json)
  | Json.arr es => some es
  | Json.str s => some (s.data.map (fun ch => Json.str (String.mk [ch])))
  | _ => none

/-- The markup built by `renderTable` lines 110-126 from the already
extracted `columns`/`rows` values; `none` models the TypeError thrown when
`cols.map` meets a non-array, the `for..of` loop meets a non-iterable
value, or a body row is null while columns exist.  The meta block
separator is the literal three-character sequence found in the source. -/
def buildTableHtml (colsVal rowsVal : Json) (matched : Option Json) : Option String :=
  match colsVal with
  | Json.arr cols =>
    match jsIterate rowsVal with
    | some rows =>
      match mapRowsHtml (rowHtml cols) rows with
      | none => none
      | some bodyRows =>
        some ("<div class=\"result-meta\">\n      Matched: <b>"
          ++ escapeHtml matched
          ++ "</b> â€¢\n      Returned: <b>"
          ++ escapeHtml (some (Json.num rows.length))
          ++ "</b>\n    </div>"
          ++ "<div class=\"result-table-wrap\"><table class=\"result-table\"><thead><tr>"
          ++ String.join (cols.map thCell)
          ++ "</tr></thead><tbody>"
          ++ String.join bodyRows
          ++ "</tbody></table></div>")
    | none => none
  | _ => none

/-- `renderTable` (lines 100-130) as a state update.  `data.columns` on a
null payload throws before any mutation; otherwise the pills, `lastResult`
and the two disabled flags are written first (lines 101-108), and the
output area and status only once the markup built without throwing
(lines 110-129).  A midway TypeError is caught by the calling search
handler, which shows the error over the partially updated state. -/
def runRender (st : UiState) (data : Json) : UiState :=
  match data with
  | Json.null => showErrorU st nullAccessMsg
  | _ =>
    let colsVal := jsOr (getField data "columns") (Json.arr [])
    let rowsVal := jsOr (getField data "rows") (Json.arr [])
    let stMut := UiState.mk st.lastSearch (some data) false false st.outputHtml
      ("Matched: " ++ tmplOpt (getField data "matched_rows"))
      ("Returned: " ++ tmplOpt (lenProp rowsVal))
      st.statusText
    match buildTableHtml colsVal rowsVal (getField data "matched_rows") with
    | some h => UiState.mk stMut.lastSearch stMut.lastResult stMut.downloadDisabled
        stMut.copyDisabled h stMut.matchedText stMut.returnedText "Loaded results."
    | none => showErrorU stMut nullAccessMsg

/-- `searchByMachine` (lines 132-147).  The second component is the URL of
the request actually dispatched (`none`: no network call was made).  The
fetch outcome `o` stands for the network interaction of `fetchJson`. -/
def searchByMachineU (st : UiState) (input lv : String) (o : FetchOutcome) :
    UiState × Option String :=
  let v := jsTrim input
  if v = "" then (showErrorU st "Machine ID required", none)
  else
    let st1 := showLoadingU st "Searching machine..."
    let url := "/api/search/machine?machine_id=" ++ encodeURIComponent v
      ++ "&limit=" ++ toString (limitOf lv)
    match ScriptJs.fetchJson o with
    | Except.error e => (showErrorU st1 e, some url)
    | Except.ok data =>
      let st2 := UiState.mk (some (Search.mk "machine" v)) st1.lastResult
        st1.downloadDisabled st1.copyDisabled st1.outputHtml st1.matchedText
        st1.returnedText st1.statusText
      (runRender st2 data, some url)

/-- `searchByLocation` (lines 149-164). -/
def searchByLocationU (st : UiState) (input lv : String) (o : FetchOutcome) :
    UiState × Option String :=
  let v := jsTrim input
  if v = "" then (showErrorU st "Location required", none)
  else
    let st1 := showLoadingU st "Searching location..."
    let url := "/api/search/location?q=" ++ encodeURIComponent v
      ++ "&limit=" ++ toString (limitOf lv)
    match ScriptJs.fetchJson o with
    | Except.error e => (showErrorU st1 e, some url)
    | Except.ok data =>
      let st2 := UiState.mk (some (Search.mk "location" v)) st1.lastResult
        st1.downloadDisabled st1.copyDisabled st1.outputHtml st1.matchedText
        st1.returnedText st1.statusText
      (runRender st2 data, some url)

/-- `downloadAllMatched` (lines 167-197).  `oc` is the outcome of the
credentialed export fetch with the error text already extracted per lines
182-185.  The result carries the requested URL (`none`: no network call)
and the client-side download filename used on success. -/
def downloadAllMatchedU (st : UiState) (oc : Except String Unit) :
    UiState × Option String × Option String :=
  match st.lastSearch with
  | none => (showErrorU st "Search first before exporting.", none, none)
  | some ls =>
    let url := if ls.type = "machine"
      then "/api/export/machine?machine_id=" ++ encodeURIComponent ls.value
      else "/api/export/location?q=" ++ encodeURIComponent ls.value
    match oc with
    | Except.error e => (showErrorU st e, some url, none)
    | Except.ok _ => (st, some url, some "results.csv")

/-- User-visible events of the component; fetch outcomes are inputs of the
environment. -/
inductive Event where
  | clear : Event
  | machine (input lv : String) (o : FetchOutcome) : Event
  | location (input lv : String) (o : FetchOutcome) : Event
  | exportCsv (oc : Except String Unit) : Event
  | copy : Event

/-- One event-loop step; `copyJson` touches none of the modelled fields. -/
def step (st : UiState) (e : Event) : UiState :=
  match e with
  | Event.clear => showHintU
  | Event.machine input lv o => (searchByMachineU st input lv o).1
  | Event.location input lv o => (searchByLocationU st input lv o).1
  | Event.exportCsv oc => (downloadAllMatchedU st oc).1
  | Event.copy => st

/-- The script initialises by calling `showHint()` (line 219). -/
def initState : UiState := showHintU

/-- State reached after a sequence of events. -/
def run (es : List Event) : UiState := es.foldl step initState

/-!
Derived predicates used by the statements
-/

/-- Character-wise form of the three sequential replacements of
`escapeHtml`. -/
def escChar (c : Char) : List Char :=
  if c = '&' then ['&', 'a', 'm', 'p', ';']
  else if c = '<' then ['&', 'l', 't', ';']
  else if c = '>' then ['&', 'g', 't', ';']
  else [c]

/-- The tail after an ampersand opens one of the three entities emitted by
`escapeHtml`. -/
def entGuard : List Char → Bool
  | 'a' :: 'm' :: 'p' :: ';' :: _ => true
  | 'l' :: 't' :: ';' :: _ => true
  | 'g' :: 't' :: ';' :: _ => true
  | _ => false

/-- Every ampersand in the list opens one of the three entities emitted by
`escapeHtml`, so none is left unescaped in a markup position. -/
def entOk : List Char → Bool
  | [] => true
  | c :: rest => (if c = '&' then entGuard rest else true) && entOk rest

/-- The export and copy buttons are disabled exactly when no result set is
held. -/
def buttonsInv (st : UiState) : Prop :=
  st.downloadDisabled = st.lastResult.isNone ∧ st.copyDisabled = st.lastResult.isNone

/-!
Theorems
-/

/-- C3 counterexample: the selector value "-5" parses to the non-positive
number -5, yet the limit used in the dispatched request is -5, not 50. -/
theorem limit_negative_cex :
    parseIntJS "-5" = some (-5) ∧ (-5 : Int) ≤ 0 ∧ limitOf "-5" = -5 ∧ limitOf "-5" ≠ 50 ∧
    (searchByMachineU initState "x" "-5" (FetchOutcome.netErr "net")).2
      = some "/api/search/machine?machine_id=x&limit=-5" := by
  refine ⟨rfl, by decide, rfl, by decide, ?_⟩
  rfl

/-- C3 amended: the numeric limit equals 50 exactly when the selector value
is absent or non-numeric (parseInt gives NaN) or parses to zero; any other
parsed value, negative ones included, is used as is. -/
theorem limit_default (s : String) :
    (parseIntJS s = none → limitOf s = 50) ∧
    (parseIntJS s = some 0 → limitOf s = 50) ∧
    (∀ n : Int, parseIntJS s = some n → n ≠ 0 → limitOf s = n) := by
  refine ⟨?_, ?_, ?_⟩
  · intro h; simp [limitOf, h]
  · intro h; simp [limitOf, h]
  · intro n h hn; simp [limitOf, h, hn]

/-- Witness for `limit_default` at the concrete selector values "abc", "0"
and "7". -/
theorem limit_default_witness :
    limitOf "abc" = 50 ∧ limitOf "0" = 50 ∧ limitOf "7" = 7 :=
  ⟨(limit_default "abc").1 rfl, (limit_default "0").2.1 rfl,
   (limit_default "7").2.2 7 rfl (by decide)⟩

/-- C5: a whitespace-only input fails immediately with the field-specific
required error and dispatches nothing; any non-empty trimmed input
dispatches a request. -/
theorem required_field_validation (st : UiState) (input lv : String) (o : FetchOutcome) :
    (jsTrim input = "" →
       searchByMachineU st input lv o = (showErrorU st "Machine ID required", none) ∧
       searchByLocationU st input lv o = (showErrorU st "Location required", none)) ∧
    (jsTrim input ≠ "" →
       (∃ u, (searchByMachineU st input lv o).2 = some u) ∧
       (∃ u, (searchByLocationU st input lv o).2 = some u)) := by
  constructor
  · intro h
    constructor
    · simp [searchByMachineU, h]
    · simp [searchByLocationU, h]
  · intro h
    constructor
    · refine ⟨"/api/search/machine?machine_id=" ++ encodeURIComponent (jsTrim input)
        ++ "&limit=" ++ toString (limitOf lv), ?_⟩
      cases hf : ScriptJs.fetchJson o <;> simp [searchByMachineU, h, hf]
    · refine ⟨"/api/search/location?q=" ++ encodeURIComponent (jsTrim input)
        ++ "&limit=" ++ toString (limitOf lv), ?_⟩
      cases hf : ScriptJs.fetchJson o <;> simp [searchByLocationU, h, hf]

/-- Witness for `required_field_validation`: two spaces give the error and
no request; "M-102" gives a request. -/
theorem required_field_validation_witness :
    (searchByMachineU initState "  " "50" (FetchOutcome.netErr "x")
       = (showErrorU initState "Machine ID required", none) ∧
     searchByLocationU initState "  " "50" (FetchOutcome.netErr "x")
       = (showErrorU initState "Location required", none)) ∧
    (∃ u, (searchByMachineU initState "M-102" "50" (FetchOutcome.netErr "x")).2 = some u) :=
  ⟨(required_field_validation initState "  " "50" (FetchOutcome.netErr "x")).1 rfl,
   ((required_field_validation initState "M-102" "50" (FetchOutcome.netErr "x")).2
      (by decide)).1⟩

/-- C10: a 204 response makes `fetchJson` return the empty object before
the content-type and body checks run, whatever the content type and body;
rendering that empty object shows an empty table, a zero returned counter
and enables the export and copy buttons. -/
theorem status204_empty_object (r : Response) (h : r.status = 204) :
    ScriptJs.fetchJson (FetchOutcome.resp r) = Except.ok (Json.obj []) ∧
    ∀ st : UiState,
      (runRender st (Json.obj [])).lastResult = some (Json.obj []) ∧
      (runRender st (Json.obj [])).downloadDisabled = false ∧
      (runRender st (Json.obj [])).copyDisabled = false ∧
      (runRender st (Json.obj [])).returnedText = "Returned: 0" ∧
      (runRender st (Json.obj [])).statusText = "Loaded results." := by
  constructor
  · simp [ScriptJs.fetchJson, Response.ok, h]
  · intro st
    exact ⟨rfl, rfl, rfl, rfl, rfl⟩

/-- Witness for `status204_empty_object` at a 204 response whose content
type is not JSON and whose body is empty. -/
theorem status204_empty_object_witness :
    ScriptJs.fetchJson (FetchOutcome.resp (Response.mk 204 "text/plain" (some "") none))
      = Except.ok (Json.obj []) ∧
    (runRender initState (Json.obj [])).downloadDisabled = false :=
  ⟨(status204_empty_object (Response.mk 204 "text/plain" (some "") none) rfl).1,
   ((status204_empty_object (Response.mk 204 "text/plain" (some "") none) rfl).2 initState).2.1⟩

/-- C2 counterexample: a success response with an empty body whose content
type is not JSON fails with "Non-JSON response received", not with the
claimed "Empty response from server" (nor with the empty text body). -/
theorem empty_body_message_cex :
    Boot.attempt (Response.mk 200 "text/html" (some "") none)
      = Except.error "Non-JSON response received" ∧
    "Non-JSON response received" ≠ "Empty response from server" := by
  exact ⟨rfl, by decide⟩

/-- C2 amended: on a success status the content-type check runs first: a
non-JSON content type fails with the text body, or with "Non-JSON response
received" when that body is empty; with a JSON content type an empty or
whitespace-only body fails with "Empty response from server"; otherwise
the parsed JSON payload is returned (a parse failure propagates). -/
theorem success_body_validation (r : Response) (t : String)
    (hok : r.ok = true) (htb : r.textBody = some t) :
    (strIncludes r.contentType "application/json" = false →
       Boot.attempt r
         = Except.error (if t = "" then "Non-JSON response received" else t)) ∧
    (strIncludes r.contentType "application/json" = true → jsTrim t = "" →
       Boot.attempt r = Except.error "Empty response from server") ∧
    (strIncludes r.contentType "application/json" = true → jsTrim t ≠ "" →
       Boot.attempt r = (match r.jsonBody with
         | none => Except.error jsonParseFailMsg
         | some j => Except.ok j)) := by
  refine ⟨?_, ?_, ?_⟩
  · intro hct
    simp [Boot.attempt, hok, htb, hct]
  · intro hct hempty
    simp [Boot.attempt, hok, htb, hct, hempty]
  · intro hct hne
    have htne : ¬ t = "" := by
      intro h
      exact hne (by simp [h, jsTrim])
    simp [Boot.attempt, hok, htb, hct, hne, htne]

/-- Witness for `success_body_validation` on three concrete responses:
non-JSON with a text body, JSON with a whitespace body, JSON with a
parseable body. -/
theorem success_body_validation_witness :
    Boot.attempt (Response.mk 200 "text/html" (some "oops") none)
      = Except.error "oops" ∧
    Boot.attempt (Response.mk 200 "application/json" (some "  ") none)
      = Except.error "Empty response from server" ∧
    Boot.attempt (Response.mk 200 "application/json" (some "\x7b\x7d") (some (Json.obj [])))
      = Except.ok (Json.obj []) := by
  refine ⟨?_, ?_, ?_⟩
  · have h := (success_body_validation (Response.mk 200 "text/html" (some "oops") none)
      "oops" rfl rfl).1 (by decide)
    simpa using h
  · exact (success_body_validation (Response.mk 200 "application/json" (some "  ") none)
      "  " rfl rfl).2.1 (by decide) rfl
  · have h := (success_body_validation
      (Response.mk 200 "application/json" (some "\x7b\x7d") (some (Json.obj [])))
      "\x7b\x7d" rfl rfl).2.2 (by decide) (by decide)
    simpa using h

/-- A string starting with the literal "HTTP " is never empty. -/
theorem http_msg_ne_empty (s : String) : "HTTP " ++ s ≠ "" := by
  intro h
  have h2 := congrArg String.length h
  simp [String.length_append] at h2
  exact absurd h2.1 (by decide)

/-- String conversion of a string value is the identity. -/
theorem jsToString_str (s : String) : jsToString (Json.str s) = s := rfl

/-- Truthiness of a string value is non-emptiness. -/
theorem truthy_str (s : String) : truthy (Json.str s) = (s != "") := rfl

/-- C4 counterexample: on a non-ok response with a non-JSON content type
and an empty text body the raised message is "Request failed", not the raw
(empty) text body; and a present-but-empty `detail` field is bypassed in
favour of the serialized body. -/
theorem error_message_cex :
    ScriptJs.fetchJson (FetchOutcome.resp (Response.mk 500 "text/plain" (some "") none))
      = Except.error "Request failed" ∧
    "Request failed" ≠ "" ∧
    errMsg (Response.mk 500 "application/json" (some "x")
        (some (Json.obj [("detail", Json.str "")])))
      = "\x7b\"detail\":\"\"\x7d" := by
  exact ⟨rfl, by decide, rfl⟩

/-- C4 amended: on a non-ok response both fetch variants raise `errMsg`,
which is: with a JSON content type, the string of a truthy `detail` field,
else the serialization of the whole JSON body, or "HTTP <status>" when the
body cannot be read or parsed; with a non-JSON content type, the raw text
body, or "HTTP <status>" when reading it fails; and "Request failed"
whenever the value so selected is falsy (in particular an empty string). -/
theorem error_message_extraction (r : Response) (hok : r.ok = false) :
    ScriptJs.fetchJson (FetchOutcome.resp r) = Except.error (errMsg r) ∧
    Boot.attempt r = Except.error (errMsg r) ∧
    (strIncludes r.contentType "application/json" = true →
       (r.jsonBody = none → errMsg r = "HTTP " ++ toString r.status) ∧
       (r.jsonBody = some Json.null → errMsg r = "HTTP " ++ toString r.status) ∧
       (∀ j d, r.jsonBody = some j → getField j "detail" = some d → truthy d = true →
          errMsg r = jsToString d) ∧
       (∀ j, r.jsonBody = some j → j ≠ Json.null → getField j "detail" = none →
          errMsg r = if stringify j = "" then "Request failed" else stringify j) ∧
       (∀ j d, r.jsonBody = some j → getField j "detail" = some d → truthy d = false →
          errMsg r = if stringify j = "" then "Request failed" else stringify j)) ∧
    (strIncludes r.contentType "application/json" = false →
       (∀ t, r.textBody = some t →
          errMsg r = if t = "" then "Request failed" else t) ∧
       (r.textBody = none → errMsg r = "HTTP " ++ toString r.status)) := by
  refine ⟨?_, ?_, ?_, ?_⟩
  · simp [ScriptJs.fetchJson, hok]
  · simp [Boot.attempt, hok]
  · intro hct
    refine ⟨?_, ?_, ?_, ?_, ?_⟩
    · intro hj
      simp [errMsg, hct, hj, truthy_str, jsToString_str]
      intro h
      exact absurd h (http_msg_ne_empty _)
    · intro hj
      simp [errMsg, hct, hj, truthy_str, jsToString_str]
      intro h
      exact absurd h (http_msg_ne_empty _)
    · intro j d hj hd htr
      have hjn : j ≠ Json.null := by
        intro hh
        rw [hh] at hd
        exact Option.noConfusion hd
      cases j <;> first
        | exact absurd rfl hjn
        | simp [errMsg, hct, hj, hd, htr]
    · intro j hj hjn hd
      by_cases hs : stringify j = "" <;>
        cases j <;> first
          | exact absurd rfl hjn
          | simp_all [errMsg, hct, truthy_str, jsToString_str]
    · intro j d hj hd htr
      have hjn : j ≠ Json.null := by
        intro hh
        rw [hh] at hd
        exact Option.noConfusion hd
      by_cases hs : stringify j = "" <;>
        cases j <;> first
          | exact absurd rfl hjn
          | simp_all [errMsg, hct, truthy_str, jsToString_str]
  · intro hct
    refine ⟨?_, ?_⟩
    · intro t ht
      by_cases hs : t = "" <;>
        simp [errMsg, hct, ht, truthy_str, jsToString_str, hs]
    · intro ht
      simp [errMsg, hct, ht, truthy_str, jsToString_str]
      intro h
      exact absurd h (http_msg_ne_empty _)

/-- Witness for `error_message_extraction` on a 500 response carrying a
JSON body with a truthy `detail` (the specification scenario) and on a 500
response whose JSON body is null. -/
theorem error_message_extraction_witness :
    ScriptJs.fetchJson (FetchOutcome.resp (Response.mk 500 "application/json" (some "x")
        (some (Json.obj [("detail", Json.str "db unavailable")]))))
      = Except.error (errMsg (Response.mk 500 "application/json" (some "x")
        (some (Json.obj [("detail", Json.str "db unavailable")])))) ∧
    errMsg (Response.mk 500 "application/json" (some "x")
        (some (Json.obj [("detail", Json.str "db unavailable")])))
      = "db unavailable" ∧
    errMsg (Response.mk 500 "application/json" (some "null") (some Json.null))
      = "HTTP 500" := by
  have h := error_message_extraction (Response.mk 500 "application/json" (some "x")
    (some (Json.obj [("detail", Json.str "db unavailable")]))) rfl
  have h0 := error_message_extraction
    (Response.mk 500 "application/json" (some "null") (some Json.null)) rfl
  refine ⟨h.1, ?_, ?_⟩
  · exact (h.2.2.1 (by decide)).2.2.1 (Json.obj [("detail", Json.str "db unavailable")])
      (Json.str "db unavailable") rfl rfl (by decide)
  · exact (h0.2.2.1 (by decide)).2.1 rfl

/-- C1 counterexample: when the first request itself fails at network
level, the failure propagates after a single request, although a retry
would have succeeded; no retry is performed, contradicting the claim that
a failed first attempt is always retried once. -/
theorem retry_policy_cex :
    Boot.fetchJson (FetchOutcome.netErr "network failure")
        (FetchOutcome.resp (Response.mk 200 "application/json" (some "1") (some (Json.num 1))))
      = (Except.error "network failure", 1) ∧
    Boot.attempt (Response.mk 200 "application/json" (some "1") (some (Json.num 1)))
      = Except.ok (Json.num 1) := by
  exact ⟨rfl, rfl⟩

/-- C1 amended: at most two requests are ever issued; a network-level
failure of the first request propagates immediately with no retry; a first
response accepted by `attempt` is returned after one request; and only a
first response rejected by `attempt` triggers the single delayed retry,
which re-issues the identical request and whose own failure propagates to
the caller unmodified. -/
theorem retry_policy (o1 o2 : FetchOutcome) :
    (Boot.fetchJson o1 o2).2 ≤ 2 ∧
    (∀ m, o1 = FetchOutcome.netErr m → Boot.fetchJson o1 o2 = (Except.error m, 1)) ∧
    (∀ r j, o1 = FetchOutcome.resp r → Boot.attempt r = Except.ok j →
       Boot.fetchJson o1 o2 = (Except.ok j, 1)) ∧
    (∀ r e, o1 = FetchOutcome.resp r → Boot.attempt r = Except.error e →
       Boot.fetchJson o1 o2 = (match o2 with
         | FetchOutcome.netErr m => Except.error m
         | FetchOutcome.resp r2 => Boot.attempt r2, 2)) := by
  refine ⟨?_, ?_, ?_, ?_⟩
  · cases o1 with
    | netErr m => simp [Boot.fetchJson]
    | resp r =>
      cases ha : Boot.attempt r <;> cases o2 <;> simp [Boot.fetchJson, ha]
  · intro m h
    subst h
    rfl
  · intro r j h ha
    subst h
    simp [Boot.fetchJson, ha]
  · intro r e h ha
    subst h
    cases o2 <;> simp [Boot.fetchJson, ha]

/-- Witness for `retry_policy`: the 500-with-detail scenario, failing on
both attempts, surfaces "db unavailable" after exactly two requests. -/
theorem retry_policy_witness :
    Boot.fetchJson
        (FetchOutcome.resp (Response.mk 500 "application/json" (some "x")
          (some (Json.obj [("detail", Json.str "db unavailable")]))))
        (FetchOutcome.resp (Response.mk 500 "application/json" (some "x")
          (some (Json.obj [("detail", Json.str "db unavailable")]))))
      = (Except.error "db unavailable", 2) := by
  have h := (retry_policy
    (FetchOutcome.resp (Response.mk 500 "application/json" (some "x")
      (some (Json.obj [("detail", Json.str "db unavailable")]))))
    (FetchOutcome.resp (Response.mk 500 "application/json" (some "x")
      (some (Json.obj [("detail", Json.str "db unavailable")]))))).2.2.2
    (Response.mk 500 "application/json" (some "x")
      (some (Json.obj [("detail", Json.str "db unavailable")])))
    "db unavailable" rfl rfl
  simpa using h

/-- `concatMapChars` distributes over append. -/
theorem concatMapChars_append (f : Char → List Char) (a b : List Char) :
    concatMapChars f (a ++ b) = concatMapChars f a ++ concatMapChars f b := by
  induction a with
  | nil => rfl
  | cons c rest ih => simp [concatMapChars, ih]

/-- The three sequential global replacements of `escapeHtml` equal one
character-wise pass of `escChar`. -/
theorem escape_chain (l : List Char) :
    concatMapChars (fun c => if c = '>' then "&gt;".data else [c])
      (concatMapChars (fun c => if c = '<' then "&lt;".data else [c])
        (concatMapChars (fun c => if c = '&' then "&amp;".data else [c]) l))
    = concatMapChars escChar l := by
  induction l with
  | nil => rfl
  | cons c rest ih =>
    show concatMapChars _ (concatMapChars _
      ((if c = '&' then "&amp;".data else [c]) ++ concatMapChars _ rest)) = _
    rw [concatMapChars_append, concatMapChars_append, ih]
    by_cases h1 : c = '&'
    · subst h1
      rfl
    · by_cases h2 : c = '<'
      · subst h2
        rfl
      · by_cases h3 : c = '>'
        · subst h3
          rfl
        · simp [concatMapChars, escChar, h1, h2, h3]

/-- Membership in a `concatMapChars` image comes from some source char. -/
theorem mem_concatMapChars {f : Char → List Char} {l : List Char} {c : Char}
    (h : c ∈ concatMapChars f l) : ∃ a ∈ l, c ∈ f a := by
  induction l with
  | nil => cases h
  | cons b rest ih =>
    rw [concatMapChars] at h
    rcases List.mem_append.mp h with h' | h'
    · exact ⟨b, List.mem_cons_self b rest, h'⟩
    · rcases ih h' with ⟨a, ha, hc⟩
      exact ⟨a, List.mem_cons_of_mem b ha, hc⟩

/-- No block emitted by `escChar` contains a raw angle bracket. -/
theorem escChar_no_angle (a c : Char) (h : c ∈ escChar a) : c ≠ '<' ∧ c ≠ '>' := by
  unfold escChar at h
  by_cases h1 : a = '&'
  · simp [h1] at h
    rcases h with rfl | rfl | rfl | rfl | rfl <;> exact ⟨by decide, by decide⟩
  · by_cases h2 : a = '<'
    · simp [h1, h2] at h
      rcases h with rfl | rfl | rfl | rfl <;> exact ⟨by decide, by decide⟩
    · by_cases h3 : a = '>'
      · simp [h1, h2, h3] at h
        rcases h with rfl | rfl | rfl | rfl <;> exact ⟨by decide, by decide⟩
      · simp [h1, h2, h3] at h
        subst h
        exact ⟨h2, h3⟩

/-- Prepending one `escChar` block preserves the entity predicate. -/
theorem entOk_block (a : Char) (t : List Char) :
    entOk (escChar a ++ t) = entOk t := by
  by_cases h1 : a = '&'
  · subst h1
    rfl
  · by_cases h2 : a = '<'
    · subst h2
      rfl
    · by_cases h3 : a = '>'
      · subst h3
        rfl
      · have hb : escChar a ++ t = a :: t := by
          simp [escChar, h1, h2, h3]
        rw [hb, entOk, if_neg h1, Bool.true_and]

/-- The single-pass image satisfies the entity predicate. -/
theorem entOk_concatMap (l : List Char) : entOk (concatMapChars escChar l) = true := by
  induction l with
  | nil => rfl
  | cons c rest ih =>
    rw [concatMapChars, entOk_block, ih]

/-- C7: the output of `escapeHtml` equals a single character-wise pass
replacing ampersand, less-than and greater-than by their entities; it
contains no raw angle bracket, every ampersand in it opens one of the
three entities, and the table builder inserts header and cell text only
through `escapeHtml`. -/
theorem escaping_markup_safe (v : Option Json) :
    (escapeHtml v).data = concatMapChars escChar (nullishToStr v).data ∧
    '<' ∉ (escapeHtml v).data ∧
    '>' ∉ (escapeHtml v).data ∧
    entOk (escapeHtml v).data = true ∧
    (∀ r c, tdCell r c = "<td>" ++ escapeHtml (getField r (jsToString c)) ++ "</td>") ∧
    (∀ c, thCell c = "<th>" ++ escapeHtml (some c) ++ "</th>") := by
  have hdata : (escapeHtml v).data = concatMapChars escChar (nullishToStr v).data :=
    escape_chain (nullishToStr v).data
  refine ⟨hdata, ?_, ?_, ?_, fun r c => rfl, fun c => rfl⟩
  · intro h
    rw [hdata] at h
    rcases mem_concatMapChars h with ⟨a, _, hc⟩
    exact (escChar_no_angle a '<' hc).1 rfl
  · intro h
    rw [hdata] at h
    rcases mem_concatMapChars h with ⟨a, _, hc⟩
    exact (escChar_no_angle a '>' hc).2 rfl
  · rw [hdata]
    exact entOk_concatMap _

/-- Code points are below 0x110000. -/
theorem char_toNat_lt (c : Char) : c.toNat < 1114112 := by
  have h := c.valid
  rcases h with h | ⟨h1, h2⟩
  · have hv : c.val.toNat < 55296 := h
    simp [Char.toNat]
    omega
  · have hv : c.val.toNat < 1114112 := h2
    simp [Char.toNat]
    omega

/-- UTF-8 encoding produces bytes. -/
theorem utf8BytesOf_lt256 (c : Char) : ∀ b ∈ utf8BytesOf c, b < 256 := by
  intro b hb
  have hv := char_toNat_lt c
  unfold utf8BytesOf at hb
  dsimp only at hb
  split_ifs at hb with h1 h2 h3 <;> simp at hb
  · omega
  · rcases hb with rfl | rfl <;> omega
  · rcases hb with rfl | rfl | rfl <;> omega
  · rcases hb with rfl | rfl | rfl | rfl <;> omega

/-- Hex digits of byte values are unreserved characters. -/
theorem hexDigitChar_unreserved : ∀ n, n < 16 → isUnreservedURI (hexDigitChar n) = true := by
  decide

/-- Membership in a percent-encoded byte list comes from some byte. -/
theorem mem_percentEncodeBytes {bs : List Nat} {c : Char}
    (h : c ∈ percentEncodeBytes bs) : ∃ b ∈ bs, c ∈ percentEncodeByte b := by
  induction bs with
  | nil => cases h
  | cons b rest ih =>
    rw [percentEncodeBytes] at h
    rcases List.mem_append.mp h with h' | h'
    · exact ⟨b, List.mem_cons_self b rest, h'⟩
    · rcases ih h' with ⟨b', hb', hc⟩
      exact ⟨b', List.mem_cons_of_mem b hb', hc⟩

/-- Every character emitted by `encodeURIComponent` is unreserved or a
percent sign; in particular no query metacharacter survives raw. -/
theorem encodeURIComponent_safe (s : String) (c : Char)
    (h : c ∈ (encodeURIComponent s).data) :
    isUnreservedURI c = true ∨ c = '%' := by
  have h' : c ∈ concatMapChars
      (fun a => if isUnreservedURI a then [a] else percentEncodeBytes (utf8BytesOf a))
      s.data := h
  rcases mem_concatMapChars h' with ⟨a, _, hc⟩
  by_cases hu : isUnreservedURI a
  · rw [if_pos hu] at hc
    simp at hc
    subst hc
    exact Or.inl hu
  · rw [if_neg hu] at hc
    rcases mem_percentEncodeBytes hc with ⟨b, hb, hcb⟩
    have hb256 := utf8BytesOf_lt256 a b hb
    simp [percentEncodeByte] at hcb
    rcases hcb with rfl | rfl | rfl
    · exact Or.inr rfl
    · exact Or.inl (hexDigitChar_unreserved (b / 16) (by omega))
    · exact Or.inl (hexDigitChar_unreserved (b % 16) (by omega))

/-- C8: search requests interpolate the percent-encoded trimmed value into
the machine and location endpoints with the numeric limit; export replays
the stored last search against the matching export endpoint with no limit
parameter and downloads as results.csv; and the encoder never lets a query
metacharacter through raw. -/
theorem urls_percent_encoded :
    (∀ (st : UiState) (input lv : String) (o : FetchOutcome), jsTrim input ≠ "" →
       (searchByMachineU st input lv o).2
         = some ("/api/search/machine?machine_id=" ++ encodeURIComponent (jsTrim input)
             ++ "&limit=" ++ toString (limitOf lv)) ∧
       (searchByLocationU st input lv o).2
         = some ("/api/search/location?q=" ++ encodeURIComponent (jsTrim input)
             ++ "&limit=" ++ toString (limitOf lv))) ∧
    (∀ (st : UiState) (ls : Search) (oc : Except String Unit), st.lastSearch = some ls →
       (downloadAllMatchedU st oc).2.1
         = some (if ls.type = "machine"
             then "/api/export/machine?machine_id=" ++ encodeURIComponent ls.value
             else "/api/export/location?q=" ++ encodeURIComponent ls.value) ∧
       (oc = Except.ok () → (downloadAllMatchedU st oc).2.2 = some "results.csv")) ∧
    (∀ (s : String) (c : Char), c ∈ (encodeURIComponent s).data →
       isUnreservedURI c = true ∨ c = '%') ∧
    (∀ c : Char, isUnreservedURI c = true →
       c ≠ '&' ∧ c ≠ '=' ∧ c ≠ '?' ∧ c ≠ '#' ∧ c ≠ '/') := by
  refine ⟨?_, ?_, encodeURIComponent_safe, ?_⟩
  · intro st input lv o h
    constructor
    · cases hf : ScriptJs.fetchJson o <;> simp [searchByMachineU, h, hf]
    · cases hf : ScriptJs.fetchJson o <;> simp [searchByLocationU, h, hf]
  · intro st ls oc hls
    constructor
    · cases oc <;> simp [downloadAllMatchedU, hls]
    · intro hoc
      subst hoc
      simp [downloadAllMatchedU, hls]
  · intro c h
    refine ⟨?_, ?_, ?_, ?_, ?_⟩ <;>
      · rintro rfl
        exact absurd h (by decide)

/-- Witness for `urls_percent_encoded` on the scenario inputs: machine id
"M-102" with limit "50", and an export after a machine search for "a b". -/
theorem urls_percent_encoded_witness :
    (searchByMachineU initState "M-102" "50" (FetchOutcome.netErr "x")).2
      = some "/api/search/machine?machine_id=M-102&limit=50" ∧
    (downloadAllMatchedU
        (UiState.mk (some (Search.mk "machine" "a b")) none true true "" "" "" "")
        (Except.ok ())).2.1
      = some "/api/export/machine?machine_id=a%20b" ∧
    (downloadAllMatchedU
        (UiState.mk (some (Search.mk "machine" "a b")) none true true "" "" "" "")
        (Except.ok ())).2.2
      = some "results.csv" := by
  refine ⟨?_, ?_, ?_⟩
  · have h := ((urls_percent_encoded.1 initState "M-102" "50"
      (FetchOutcome.netErr "x")) (by decide)).1
    rw [h]
    rfl
  · have h := (urls_percent_encoded.2.1
      (UiState.mk (some (Search.mk "machine" "a b")) none true true "" "" "" "")
      (Search.mk "machine" "a b") (Except.ok ()) rfl).1
    rw [h]
    rfl
  · exact (urls_percent_encoded.2.1
      (UiState.mk (some (Search.mk "machine" "a b")) none true true "" "" "" "")
      (Search.mk "machine" "a b") (Except.ok ()) rfl).2 rfl

/-- Any render of a non-null payload stores it as the last result and
enables both buttons, even when markup building throws midway. -/
theorem runRender_fields (st : UiState) (data : Json) (h : data ≠ Json.null) :
    (runRender st data).lastResult = some data ∧
    (runRender st data).downloadDisabled = false ∧
    (runRender st data).copyDisabled = false := by
  cases data with
  | null => exact absurd rfl h
  | bool b => exact ⟨rfl, rfl, rfl⟩
  | num n => exact ⟨rfl, rfl, rfl⟩
  | str s => exact ⟨rfl, rfl, rfl⟩
  | arr es =>
    cases hb : buildTableHtml (jsOr (getField (Json.arr es) "columns") (Json.arr []))
        (jsOr (getField (Json.arr es) "rows") (Json.arr []))
        (getField (Json.arr es) "matched_rows") <;>
      simp [runRender, hb, showErrorU]
  | obj fields =>
    cases hb : buildTableHtml (jsOr (getField (Json.obj fields) "columns") (Json.arr []))
        (jsOr (getField (Json.obj fields) "rows") (Json.arr []))
        (getField (Json.obj fields) "matched_rows") <;>
      simp [runRender, hb, showErrorU]

/-- Rendering preserves the button invariant. -/
theorem buttonsInv_runRender (st : UiState) (data : Json) (h : buttonsInv st) :
    buttonsInv (runRender st data) := by
  by_cases hd : data = Json.null
  · subst hd
    exact h
  · obtain ⟨h1, h2, h3⟩ := runRender_fields st data hd
    exact ⟨by rw [h2, h1]; rfl, by rw [h3, h1]; rfl⟩

/-- Every event-loop step preserves the button invariant. -/
theorem step_buttonsInv (st : UiState) (e : Event) (h : buttonsInv st) :
    buttonsInv (step st e) := by
  cases e with
  | clear => exact ⟨rfl, rfl⟩
  | copy => exact h
  | exportCsv oc =>
    show buttonsInv (downloadAllMatchedU st oc).1
    rcases hls : st.lastSearch with _ | ls <;> cases oc <;>
      simp [downloadAllMatchedU, hls] <;> exact h
  | machine input lv o =>
    show buttonsInv (searchByMachineU st input lv o).1
    by_cases hv : jsTrim input = ""
    · simp [searchByMachineU, hv]
      exact h
    · cases hf : ScriptJs.fetchJson o with
      | error e' =>
        simp [searchByMachineU, hv, hf]
        exact h
      | ok data =>
        simp [searchByMachineU, hv, hf]
        exact buttonsInv_runRender _ data h
  | location input lv o =>
    show buttonsInv (searchByLocationU st input lv o).1
    by_cases hv : jsTrim input = ""
    · simp [searchByLocationU, hv]
      exact h
    · cases hf : ScriptJs.fetchJson o with
      | error e' =>
        simp [searchByLocationU, hv, hf]
        exact h
      | ok data =>
        simp [searchByLocationU, hv, hf]
        exact buttonsInv_runRender _ data h

/-- The button invariant holds along any event fold. -/
theorem foldl_buttonsInv (es : List Event) :
    ∀ st : UiState, buttonsInv st → buttonsInv (es.foldl step st) := by
  induction es with
  | nil => intro st h; exact h
  | cons e rest ih => intro st h; exact ih (step st e) (step_buttonsInv st e h)

/-- C6: in every reachable state the export and copy buttons are disabled
exactly when no result set is held (so they are disabled initially and
after reset), and any render of a payload enables them immediately while
storing the payload as the held result. -/
theorem export_copy_enabled_iff :
    (∀ es : List Event, buttonsInv (run es)) ∧
    (∀ (st : UiState) (data : Json), data ≠ Json.null →
       (runRender st data).lastResult = some data ∧
       (runRender st data).downloadDisabled = false ∧
       (runRender st data).copyDisabled = false) := by
  constructor
  · intro es
    exact foldl_buttonsInv es initState ⟨rfl, rfl⟩
  · exact runRender_fields

/-- Witness for `export_copy_enabled_iff`: a concrete event trace and the
empty-object render. -/
theorem export_copy_enabled_iff_witness :
    buttonsInv (run [Event.machine "M-102" "50"
        (FetchOutcome.resp (Response.mk 200 "application/json" (some "x")
          (some (Json.obj [])))), Event.copy]) ∧
    (runRender initState (Json.obj [])).downloadDisabled = false :=
  ⟨export_copy_enabled_iff.1 [Event.machine "M-102" "50"
      (FetchOutcome.resp (Response.mk 200 "application/json" (some "x")
        (some (Json.obj [])))), Event.copy],
   (export_copy_enabled_iff.2 initState (Json.obj [])
      (fun hh => Json.noConfusion hh)).2.1⟩

/-- Integer values print through `toString`. -/
theorem jsToString_num (n : Int) : jsToString (Json.num n) = toString n := rfl

/-- Row mapping succeeds on non-null rows and yields one `tr` block per
row, cells in column order. -/
theorem mapRowsHtml_rowHtml (cols : List Json) (rows : List Json)
    (h : ∀ r ∈ rows, r ≠ Json.null) :
    mapRowsHtml (rowHtml cols) rows
      = some (rows.map (fun r =>
          "<tr>" ++ String.join (cols.map (fun c => tdCell r c)) ++ "</tr>")) := by
  induction rows with
  | nil => rfl
  | cons r rest ih =>
    have hrn := h r (List.mem_cons_self r rest)
    have hr : rowHtml cols r
        = some ("<tr>" ++ String.join (cols.map (fun c => tdCell r c)) ++ "</tr>") := by
      cases r <;> cases cols <;> first | rfl | exact absurd rfl hrn
    have ih' := ih (fun r' hr' => h r' (List.mem_cons_of_mem r hr'))
    rw [mapRowsHtml, hr, ih']
    rfl

/-- The table markup built from array-shaped columns and rows, with no
null row, is the spec-shaped table: header cells are the columns in
order, each body row holds each column value for that row in order. -/
theorem buildTableHtml_spec (cols rows : List Json) (mo : Option Json)
    (h : ∀ r ∈ rows, r ≠ Json.null) :
    buildTableHtml (Json.arr cols) (Json.arr rows) mo
      = some ("<div class=\"result-meta\">\n      Matched: <b>" ++ escapeHtml mo
        ++ "</b> â€¢\n      Returned: <b>" ++ escapeHtml (some (Json.num rows.length))
        ++ "</b>\n    </div>"
        ++ "<div class=\"result-table-wrap\"><table class=\"result-table\"><thead><tr>"
        ++ String.join (cols.map thCell)
        ++ "</tr></thead><tbody>"
        ++ String.join (rows.map (fun r =>
             "<tr>" ++ String.join (cols.map (fun c => tdCell r c)) ++ "</tr>"))
        ++ "</tbody></table></div>") := by
  show (match mapRowsHtml (rowHtml cols) rows with
    | none => none
    | some bodyRows => some ("<div class=\"result-meta\">\n      Matched: <b>"
        ++ escapeHtml mo
        ++ "</b> â€¢\n      Returned: <b>"
        ++ escapeHtml (some (Json.num rows.length))
        ++ "</b>\n    </div>"
        ++ "<div class=\"result-table-wrap\"><table class=\"result-table\"><thead><tr>"
        ++ String.join (cols.map thCell)
        ++ "</tr></thead><tbody>"
        ++ String.join bodyRows
        ++ "</tbody></table></div>")) = _
  rw [mapRowsHtml_rowHtml cols rows h]

/-- Unfolding of `renderTable` on an object payload. -/
theorem runRender_obj (st : UiState) (fields : List (String × Json)) :
    runRender st (Json.obj fields)
      = match buildTableHtml (jsOr (getField (Json.obj fields) "columns") (Json.arr []))
          (jsOr (getField (Json.obj fields) "rows") (Json.arr []))
          (getField (Json.obj fields) "matched_rows") with
        | some h => UiState.mk st.lastSearch (some (Json.obj fields)) false false h
            ("Matched: " ++ tmplOpt (getField (Json.obj fields) "matched_rows"))
            ("Returned: " ++ tmplOpt (lenProp (jsOr (getField (Json.obj fields) "rows")
              (Json.arr []))))
            "Loaded results."
        | none => showErrorU (UiState.mk st.lastSearch (some (Json.obj fields)) false false
            st.outputHtml
            ("Matched: " ++ tmplOpt (getField (Json.obj fields) "matched_rows"))
            ("Returned: " ++ tmplOpt (lenProp (jsOr (getField (Json.obj fields) "rows")
              (Json.arr []))))
            st.statusText) nullAccessMsg := rfl

/-- With no columns every row renders as an empty `tr`, null rows
included (the cell loop body never runs). -/
theorem mapRowsHtml_nilcols (rows : List Json) :
    mapRowsHtml (rowHtml []) rows
      = some (rows.map (fun r =>
          "<tr>" ++ String.join (([] : List Json).map (fun c => tdCell r c)) ++ "</tr>")) := by
  induction rows with
  | nil => rfl
  | cons r rest ih =>
    have hr : rowHtml [] r
        = some ("<tr>" ++ String.join (([] : List Json).map (fun c => tdCell r c)) ++ "</tr>") := by
      cases r <;> rfl
    rw [mapRowsHtml, hr, ih]
    rfl

/-- Table markup for an empty column list over any rows. -/
theorem buildTableHtml_nilcols (rows : List Json) (mo : Option Json) :
    buildTableHtml (Json.arr []) (Json.arr rows) mo
      = some ("<div class=\"result-meta\">\n      Matched: <b>" ++ escapeHtml mo
        ++ "</b> â€¢\n      Returned: <b>" ++ escapeHtml (some (Json.num rows.length))
        ++ "</b>\n    </div>"
        ++ "<div class=\"result-table-wrap\"><table class=\"result-table\"><thead><tr>"
        ++ String.join (([] : List Json).map thCell)
        ++ "</tr></thead><tbody>"
        ++ String.join (rows.map (fun r =>
             "<tr>" ++ String.join (([] : List Json).map (fun c => tdCell r c)) ++ "</tr>"))
        ++ "</tbody></table></div>") := by
  show (match mapRowsHtml (rowHtml []) rows with
    | none => none
    | some bodyRows => some ("<div class=\"result-meta\">\n      Matched: <b>"
        ++ escapeHtml mo
        ++ "</b> â€¢\n      Returned: <b>"
        ++ escapeHtml (some (Json.num rows.length))
        ++ "</b>\n    </div>"
        ++ "<div class=\"result-table-wrap\"><table class=\"result-table\"><thead><tr>"
        ++ String.join (([] : List Json).map thCell)
        ++ "</tr></thead><tbody>"
        ++ String.join bodyRows
        ++ "</tbody></table></div>")) = _
  rw [mapRowsHtml_nilcols rows]

/-- A present array field survives the `|| []` default. -/
theorem jsOr_some_arr (es : List Json) (d : Json) : jsOr (some (Json.arr es)) d = Json.arr es := rfl

/-- An absent field falls back to the `|| []` default. -/
theorem jsOr_none_d (d : Json) : jsOr none d = d := rfl

/-- C9: rendering a payload whose `matched_rows` is an integer produces
the header row as the column sequence in order and one body row per row
with each column value in order; the counters carry the matched count and
the number of rows; a missing key yields an empty cell; and an absent
`columns` or `rows` field (or both) is treated as the empty sequence. -/
theorem render_table_spec :
    (∀ (st : UiState) (data : Json) (cols rows : List Json) (m : Int),
       getField data "columns" = some (Json.arr cols) →
       getField data "rows" = some (Json.arr rows) →
       getField data "matched_rows" = some (Json.num m) →
       (∀ r ∈ rows, r ≠ Json.null) →
       (runRender st data).matchedText = "Matched: " ++ toString m ∧
       (runRender st data).returnedText = "Returned: " ++ toString (rows.length : Int) ∧
       (runRender st data).lastResult = some data ∧
       (runRender st data).downloadDisabled = false ∧
       (runRender st data).copyDisabled = false ∧
       (runRender st data).statusText = "Loaded results." ∧
       (runRender st data).outputHtml
         = "<div class=\"result-meta\">\n      Matched: <b>" ++ escapeHtml (some (Json.num m))
           ++ "</b> â€¢\n      Returned: <b>" ++ escapeHtml (some (Json.num rows.length))
           ++ "</b>\n    </div>"
           ++ "<div class=\"result-table-wrap\"><table class=\"result-table\"><thead><tr>"
           ++ String.join (cols.map thCell)
           ++ "</tr></thead><tbody>"
           ++ String.join (rows.map (fun r =>
                "<tr>" ++ String.join (cols.map (fun c => tdCell r c)) ++ "</tr>"))
           ++ "</tbody></table></div>" ∧
       (∀ r c, getField r (jsToString c) = none → tdCell r c = "<td></td>")) ∧
    (∀ (st : UiState) (data : Json) (rows : List Json) (m : Int),
       getField data "columns" = none →
       getField data "rows" = some (Json.arr rows) →
       getField data "matched_rows" = some (Json.num m) →
       (runRender st data).matchedText = "Matched: " ++ toString m ∧
       (runRender st data).returnedText = "Returned: " ++ toString (rows.length : Int) ∧
       (runRender st data).lastResult = some data ∧
       (runRender st data).downloadDisabled = false ∧
       (runRender st data).statusText = "Loaded results." ∧
       (runRender st data).outputHtml
         = "<div class=\"result-meta\">\n      Matched: <b>" ++ escapeHtml (some (Json.num m))
           ++ "</b> â€¢\n      Returned: <b>" ++ escapeHtml (some (Json.num rows.length))
           ++ "</b>\n    </div>"
           ++ "<div class=\"result-table-wrap\"><table class=\"result-table\"><thead><tr>"
           ++ String.join (([] : List Json).map thCell)
           ++ "</tr></thead><tbody>"
           ++ String.join (rows.map (fun r =>
                "<tr>" ++ String.join (([] : List Json).map (fun c => tdCell r c)) ++ "</tr>"))
           ++ "</tbody></table></div>") ∧
    (∀ (st : UiState) (data : Json) (cols : List Json) (m : Int),
       getField data "columns" = some (Json.arr cols) →
       getField data "rows" = none →
       getField data "matched_rows" = some (Json.num m) →
       (runRender st data).matchedText = "Matched: " ++ toString m ∧
       (runRender st data).returnedText = "Returned: 0" ∧
       (runRender st data).lastResult = some data ∧
       (runRender st data).downloadDisabled = false ∧
       (runRender st data).statusText = "Loaded results." ∧
       (runRender st data).outputHtml
         = "<div class=\"result-meta\">\n      Matched: <b>" ++ escapeHtml (some (Json.num m))
           ++ "</b> â€¢\n      Returned: <b>" ++ escapeHtml (some (Json.num 0))
           ++ "</b>\n    </div>"
           ++ "<div class=\"result-table-wrap\"><table class=\"result-table\"><thead><tr>"
           ++ String.join (cols.map thCell)
           ++ "</tr></thead><tbody>"
           ++ String.join (([] : List Json).map (fun r =>
                "<tr>" ++ String.join (cols.map (fun c => tdCell r c)) ++ "</tr>"))
           ++ "</tbody></table></div>") ∧
    (∀ (st : UiState) (data : Json) (m : Int),
       getField data "columns" = none →
       getField data "rows" = none →
       getField data "matched_rows" = some (Json.num m) →
       (runRender st data).matchedText = "Matched: " ++ toString m ∧
       (runRender st data).returnedText = "Returned: 0" ∧
       (runRender st data).lastResult = some data ∧
       (runRender st data).downloadDisabled = false ∧
       (runRender st data).statusText = "Loaded results.") := by
  refine ⟨?_, ?_, ?_, ?_⟩
  · intro st data cols rows m hcols hrows hm hnn
    cases data with
    | null => exact Option.noConfusion hcols
    | bool b => exact Option.noConfusion hcols
    | num n => exact Option.noConfusion hcols
    | str s => exact Option.noConfusion hcols
    | arr es => exact Option.noConfusion hcols
    | obj fields =>
      rw [runRender_obj, hcols, hrows, hm, jsOr_some_arr, jsOr_some_arr,
        buildTableHtml_spec cols rows (some (Json.num m)) hnn]
      refine ⟨rfl, rfl, rfl, rfl, rfl, rfl, rfl, ?_⟩
      intro r c hmiss
      show "<td>" ++ escapeHtml (getField r (jsToString c)) ++ "</td>" = "<td></td>"
      rw [hmiss]
      rfl
  · intro st data rows m hcols hrows hm
    cases data with
    | null => exact Option.noConfusion hrows
    | bool b => exact Option.noConfusion hrows
    | num n => exact Option.noConfusion hrows
    | str s => exact Option.noConfusion hrows
    | arr es => exact Option.noConfusion hrows
    | obj fields =>
      rw [runRender_obj, hcols, hrows, hm, jsOr_none_d, jsOr_some_arr,
        buildTableHtml_nilcols rows (some (Json.num m))]
      exact ⟨rfl, rfl, rfl, rfl, rfl, rfl⟩
  · intro st data cols m hcols hrows hm
    cases data with
    | null => exact Option.noConfusion hcols
    | bool b => exact Option.noConfusion hcols
    | num n => exact Option.noConfusion hcols
    | str s => exact Option.noConfusion hcols
    | arr es => exact Option.noConfusion hcols
    | obj fields =>
      rw [runRender_obj, hcols, hrows, hm, jsOr_some_arr, jsOr_none_d,
        buildTableHtml_spec cols [] (some (Json.num m))
          (fun r hr => absurd hr (List.not_mem_nil r))]
      exact ⟨rfl, rfl, rfl, rfl, rfl, rfl⟩
  · intro st data m hcols hrows hm
    cases data with
    | null => exact Option.noConfusion hm
    | bool b => exact Option.noConfusion hm
    | num n => exact Option.noConfusion hm
    | str s => exact Option.noConfusion hm
    | arr es => exact Option.noConfusion hm
    | obj fields =>
      rw [runRender_obj, hcols, hrows, hm, jsOr_none_d,
        buildTableHtml_nilcols [] (some (Json.num m))]
      exact ⟨rfl, rfl, rfl, rfl, rfl⟩

/-- Witness for `render_table_spec` on the specification scenario payload
(columns id,site, one row, matched_rows 1) and on a payload with both
`columns` and `rows` absent. -/
theorem render_table_spec_witness :
    (runRender initState (Json.obj [("columns", Json.arr [Json.str "id", Json.str "site"]),
        ("rows", Json.arr [Json.obj [("id", Json.str "M-102"), ("site", Json.str "NY")]]),
        ("matched_rows", Json.num 1)])).matchedText = "Matched: 1" ∧
    (runRender initState (Json.obj [("columns", Json.arr [Json.str "id", Json.str "site"]),
        ("rows", Json.arr [Json.obj [("id", Json.str "M-102"), ("site", Json.str "NY")]]),
        ("matched_rows", Json.num 1)])).returnedText = "Returned: 1" ∧
    (runRender initState (Json.obj [("columns", Json.arr [Json.str "id", Json.str "site"]),
        ("rows", Json.arr [Json.obj [("id", Json.str "M-102"), ("site", Json.str "NY")]]),
        ("matched_rows", Json.num 1)])).downloadDisabled = false ∧
    (runRender initState (Json.obj [("matched_rows", Json.num 0)])).returnedText
      = "Returned: 0" := by
  have h := render_table_spec.1 initState
    (Json.obj [("columns", Json.arr [Json.str "id", Json.str "site"]),
      ("rows", Json.arr [Json.obj [("id", Json.str "M-102"), ("site", Json.str "NY")]]),
      ("matched_rows", Json.num 1)])
    [Json.str "id", Json.str "site"]
    [Json.obj [("id", Json.str "M-102"), ("site", Json.str "NY")]] 1 rfl rfl rfl
    (by
      intro r hr
      rcases List.mem_singleton.mp hr with rfl
      exact fun hh => Json.noConfusion hh)
  have h4 := render_table_spec.2.2.2 initState
    (Json.obj [("matched_rows", Json.num 0)]) 0 rfl rfl rfl
  exact ⟨h.1, h.2.1, h.2.2.2.1, h4.2.1⟩

/-- Witness for `escaping_markup_safe` at a value containing all three
escaped characters. -/
theorem escaping_markup_safe_witness :
    escapeHtml (some (Json.str "a<b>&c")) = "a&lt;b&gt;&amp;c" ∧
    entOk (escapeHtml (some (Json.str "a<b>&c"))).data = true ∧
    '<' ∉ (escapeHtml (some (Json.str "a<b>&c"))).data :=
  ⟨rfl, (escaping_markup_safe (some (Json.str "a<b>&c"))).2.2.2.1,
   (escaping_markup_safe (some (Json.str "a<b>&c"))).2.1⟩
